import Mathlib

/-!
Verification of the Toll Brothers scraping pipeline
(`get_tollbrothers_page.py`, `get_tollbrothers_api_links.py`).

The rendered HTML document is embedded as a tree of nodes; the external
collaborators (the headless renderer, the JSON decoder of the standard
library, the clock) are passed in as explicit function parameters, as the
specification treats them as interfaces.  Python values flowing through the
assembled JSON records are embedded as `JVal`.  Each `extract_*` function of
the source is translated to a Lean function of the same name.
-/

namespace TB

/-- Python/JSON values as they appear in the assembled records.  `vnull` is
Python `None`, `vstr`/`vint`/`vbool` the scalar types, `varr` a list and
`vobj` a dict given as an association list in insertion order. -/
inductive JVal where
  | vnull : JVal
  | vbool : Bool → JVal
  | vstr : String → JVal
  | vint : Int → JVal
  | varr : List JVal → JVal
  | vobj : List (String × JVal) → JVal

open JVal

mutual

/-- Structural (Python `==`) equality test on `JVal`, mutually with lists
and objects; values of different shapes compare unequal, as in Python. -/
def jeq : JVal → JVal → Bool
  | .vnull, .vnull => true
  | .vbool a, .vbool b => a == b
  | .vstr a, .vstr b => a == b
  | .vint a, .vint b => a == b
  | .varr a, .varr b => jeqList a b
  | .vobj a, .vobj b => jeqObj a b
  | _, _ => false

def jeqList : List JVal → List JVal → Bool
  | [], [] => true
  | a :: as, b :: bs => jeq a b && jeqList as bs
  | _, _ => false

def jeqObj : List (String × JVal) → List (String × JVal) → Bool
  | [], [] => true
  | (k, v) :: as, (k', v') :: bs => k == k' && jeq v v' && jeqObj as bs
  | _, _ => false

end

/-- Python `x in xs` for a list of `JVal`. -/
def jmem (x : JVal) (xs : List JVal) : Bool :=
  xs.any (fun y => jeq y x)

/-- Python truthiness of a value (`bool(v)`). -/
def jTruthy : JVal → Bool
  | .vnull => false
  | .vbool b => b
  | .vstr s => !s.isEmpty
  | .vint n => n != 0
  | .varr l => !l.isEmpty
  | .vobj l => !l.isEmpty

mutual

/-- Python `str(v)` as used inside f-strings (scalars rendered exactly;
containers rendered in bracketed form, unused by any theorem below). -/
def pyStr : JVal → String
  | .vnull => "None"
  | .vbool true => "True"
  | .vbool false => "False"
  | .vstr s => s
  | .vint n => toString n
  | .varr l => "[" ++ pyStrList l ++ "]"
  | .vobj l => "\x7b" ++ pyStrObj l ++ "\x7d"

def pyStrList : List JVal → String
  | [] => ""
  | [x] => pyStr x
  | x :: rest => pyStr x ++ ", " ++ pyStrList rest

def pyStrObj : List (String × JVal) → String
  | [] => ""
  | [(k, v)] => k ++ ": " ++ pyStr v
  | (k, v) :: rest => k ++ ": " ++ pyStr v ++ ", " ++ pyStrObj rest

end

/-- Dictionary lookup (first matching key; keys are unique in dicts built by
`dinsert`). -/
def dlookup : List (String × JVal) → String → Option JVal
  | [], _ => none
  | (k, v) :: rest, key => if k = key then some v else dlookup rest key

/-- Python `d.get(k, dflt)`. -/
def jgetD (d : List (String × JVal)) (k : String) (dflt : JVal) : JVal :=
  (dlookup d k).getD dflt

/-- `d[k] = v` on a dict: overwrite in place if the key exists, append
otherwise (CPython insertion-order semantics). -/
def dinsert : List (String × JVal) → String → JVal → List (String × JVal)
  | [], k, v => [(k, v)]
  | (k', v') :: rest, k, v =>
    if k' = k then (k', v) :: rest else (k', v') :: dinsert rest k v

/-- Python `d.update(fs)`: insert every pair of `fs` in order. -/
def dictUpdate (d : List (String × JVal)) (fs : List (String × JVal)) :
    List (String × JVal) :=
  fs.foldl (fun acc kv => dinsert acc kv.1 kv.2) d

/-- The keys of a dict, in order. -/
def dkeys (d : List (String × JVal)) : List String := d.map Prod.fst

/-! ### Elementary string operations

All recursion below is structural over character lists, so that every
definition evaluates inside the kernel. -/

/-- Python `s.strip()`: drop whitespace from both ends. -/
def pyStrip (s : String) : String :=
  String.mk
    ((s.data.dropWhile Char.isWhitespace).reverse.dropWhile
      Char.isWhitespace).reverse

/-- Python `s.lower()`. -/
def lowerStr (s : String) : String := String.mk (s.data.map Char.toLower)

/-- Lexicographic code-point comparison (Python `<` on strings). -/
def charListLt : List Char → List Char → Bool
  | [], [] => false
  | [], _ :: _ => true
  | _ :: _, [] => false
  | a :: as, b :: bs =>
    if a.toNat < b.toNat then true
    else if b.toNat < a.toNat then false
    else charListLt as bs

/-- Python `a < b` on strings. -/
def strLt (a b : String) : Bool := charListLt a.data b.data

/-- Whitespace-separated tokens (`s.split()`): `acc` holds the reversed
current token. -/
def wsTokensAux : List Char → List Char → List String
  | [], acc => if acc.isEmpty then [] else [String.mk acc.reverse]
  | c :: cs, acc =>
    if c.isWhitespace then
      if acc.isEmpty then wsTokensAux cs []
      else String.mk acc.reverse :: wsTokensAux cs []
    else wsTokensAux cs (c :: acc)

/-! ## The rendered document

A parsed HTML document (the output of `BeautifulSoup(page_source,
'html.parser')`) is a tree of element and text nodes. -/

/-- One node of the parsed document: a text node or an element with a tag
name, attribute list and children. -/
inductive Node where
  | text : String → Node
  | elem : String → List (String × String) → List Node → Node

mutual

/-- All nodes of a subtree in document (pre-)order, the root included. -/
def allNodes : Node → List Node
  | .text s => [Node.text s]
  | .elem n a cs => Node.elem n a cs :: allNodesList cs

def allNodesList : List Node → List Node
  | [] => []
  | c :: cs => allNodes c ++ allNodesList cs

end

/-- The descendants of a node, excluding the node itself: the search space
of BeautifulSoup `find`/`find_all`/`select` on a tag or on the soup. -/
def descOf : Node → List Node
  | .text _ => []
  | .elem _ _ cs => allNodesList cs

/-- The string of a text node. -/
def textOf : Node → Option String
  | .text s => some s
  | .elem _ _ _ => none

/-- All text-node strings of a subtree in document order (what a
`find(text=...)` filter scans over). -/
def textsOf (n : Node) : List String := (allNodes n).filterMap textOf

/-- BeautifulSoup `.text` / `get_text()`: the concatenation of all
descendant strings. -/
def nodeText (n : Node) : String := String.join (textsOf n)

/-- BeautifulSoup `.string`: the unique string of a tag that has a single
child chain terminating in one text node, `None` otherwise. -/
def nodeString : Node → Option String
  | .text s => some s
  | .elem _ _ [c] => nodeString c
  | .elem _ _ _ => none

/-- The attribute list of a node (empty for text nodes). -/
def attrsOf : Node → List (String × String)
  | .text _ => []
  | .elem _ a _ => a

/-- Attribute lookup, `tag.get(k)` / `tag[k]` guarded by `has_attr`. -/
def getAttr (n : Node) (k : String) : Option String :=
  ((attrsOf n).find? (fun kv => kv.1 == k)).map Prod.snd

/-- The tag name of an element node. -/
def nameOf : Node → Option String
  | .text _ => none
  | .elem nm _ _ => some nm

/-- Does this node have the given tag name? -/
def isNamed (n : Node) (nm : String) : Bool := nameOf n == some nm

/-- The `class` attribute, unsplit. -/
def classAttr (n : Node) : Option String := getAttr n "class"

/-- The individual CSS classes of a node (the multi-valued view
BeautifulSoup takes of the `class` attribute). -/
def classes (n : Node) : List String :=
  (match classAttr n with
    | some c => wsTokensAux c.data []
    | none => [])

/-- CSS class membership, as used by `select` / `select_one`. -/
def hasClass (n : Node) (cls : String) : Bool := (classes n).contains cls

/-! ## String and pattern utilities

The regular expressions of the source are small and concrete; each is
translated to an equivalent deterministic scanner over the character list
(leftmost-match `re.search` semantics). -/

/-- Does the character list start with the pattern list? -/
def startsWithL : List Char → List Char → Bool
  | _, [] => true
  | [], _ :: _ => false
  | c :: cs, p :: ps => c == p && startsWithL cs ps

/-- Substring occurrence test (`pat in s` on the char level). -/
def containsSubL (pat : List Char) : List Char → Bool
  | [] => startsWithL [] pat
  | c :: cs => startsWithL (c :: cs) pat || containsSubL pat cs

/-- Python `pat in s`. -/
def containsSub (s pat : String) : Bool := containsSubL pat.data s.data

/-- `re.search` driver: does the position predicate hold at any suffix? -/
def scanAny (p : List Char → Bool) : List Char → Bool
  | [] => p []
  | c :: cs => p (c :: cs) || scanAny p cs

/-- Consume exactly `n` characters satisfying `p`, returning the rest. -/
def consumeN (p : Char → Bool) : Nat → List Char → Option (List Char)
  | 0, l => some l
  | n + 1, c :: cs => if p c then consumeN p n cs else none
  | _ + 1, [] => none

/-- Consume one expected character. -/
def consumeChar (ch : Char) : List Char → Option (List Char)
  | c :: cs => if c == ch then some cs else none
  | [] => none

/-- Match of `starting at \$[\d,]+` anchored at the head of the suffix. -/
def priceAt (l : List Char) : Bool :=
  startsWithL l "starting at $".data &&
    (match l.drop "starting at $".length with
      | c :: _ => c.isDigit || c == ','
      | [] => false)

/-- `re.search(r'starting at \$[\d,]+', s)` succeeds. -/
def priceSearch (s : String) : Bool := scanAny priceAt s.data

/-- Match of `\d{3}-\d{3}-\d{4}` anchored at the head of the suffix. -/
def phoneAt (l : List Char) : Bool :=
  (((((consumeN Char.isDigit 3 l).bind (consumeChar '-')).bind
        (consumeN Char.isDigit 3)).bind (consumeChar '-')).bind
      (consumeN Char.isDigit 4)).isSome

/-- `re.search(r'\d{3}-\d{3}-\d{4}', s)` succeeds. -/
def phoneSearch (s : String) : Bool := scanAny phoneAt s.data

/-- Match of `\d+\s*(?:bd|ba)` anchored at the head of the suffix.  The
digit run and the whitespace run are forced (a shorter take leaves a digit
or a space where `b` must stand), so no backtracking is needed. -/
def bdbaAt (l : List Char) : Bool :=
  match l with
  | c :: _ =>
    c.isDigit &&
      (let r := (l.dropWhile Char.isDigit).dropWhile Char.isWhitespace
       startsWithL r "bd".data || startsWithL r "ba".data)
  | [] => false

/-- `re.search(r'\d+\s*(?:bd|ba)', s)` succeeds. -/
def bdbaSearch (s : String) : Bool := scanAny bdbaAt s.data

/-- Match of `\d+\s*(?:bd|ba|sqft)` anchored at the head of the suffix. -/
def bdbaSqftAt (l : List Char) : Bool :=
  match l with
  | c :: _ =>
    c.isDigit &&
      (let r := (l.dropWhile Char.isDigit).dropWhile Char.isWhitespace
       startsWithL r "bd".data || startsWithL r "ba".data ||
         startsWithL r "sqft".data)
  | [] => false

/-- `re.search(r'\d+\s*(?:bd|ba|sqft)', s)` succeeds. -/
def bdbaSqftSearch (s : String) : Bool := scanAny bdbaSqftAt s.data

/-- Greedily consume `(?:,\d{3})*` groups. -/
def consumeGroups : List Char → List Char
  | ',' :: a :: b :: c :: rest =>
    if a.isDigit && b.isDigit && c.isDigit then consumeGroups rest
    else ',' :: a :: b :: c :: rest
  | l => l

/-- Match of `\d{1,3}(?:,\d{3})*\s*sqft` anchored at the head of the
suffix.  A digit run longer than three makes the position fail (the fourth
digit can start neither a comma group nor `\s*sqft`), so the scanner is
backtracking-free. -/
def sqftAt (l : List Char) : Bool :=
  match l with
  | c :: _ =>
    c.isDigit &&
      (let run := l.takeWhile Char.isDigit
       decide (run.length ≤ 3) &&
         (let rest := (consumeGroups (l.drop run.length)).dropWhile Char.isWhitespace
          startsWithL rest "sqft".data))
  | [] => false

/-- `re.search(r'\d{1,3}(?:,\d{3})*\s*sqft', s)` succeeds: the text filter
of `extract_sqft_range`. -/
def sqftTextSearch (s : String) : Bool := scanAny sqftAt s.data

/-- Greedily collect the characters of `(?:,\d{3})*`. -/
def groupsTake : List Char → List Char
  | ',' :: a :: b :: c :: rest =>
    if a.isDigit && b.isDigit && c.isDigit then
      ',' :: a :: b :: c :: groupsTake rest
    else []
  | _ => []

/-- The greedy match of `\d{1,3}(?:,\d{3})*` anchored at a digit: at most
three leading digits, then comma groups. -/
def groupedNumCapture (l : List Char) : List Char :=
  let d := min (l.takeWhile Char.isDigit).length 3
  l.take d ++ groupsTake (l.drop d)

/-- `re.search(r'(\d{1,3}(?:,\d{3})*)', s)`: the leftmost match starts at
the leftmost digit. -/
def searchGroupedNum : List Char → Option (List Char)
  | [] => none
  | c :: cs =>
    if c.isDigit then some (groupedNumCapture (c :: cs))
    else searchGroupedNum cs

/-- Match of `Goodyear, AZ \d{5}` anchored at the head of the suffix. -/
def goodyearAt (l : List Char) : Bool :=
  startsWithL l "Goodyear, AZ ".data &&
    (consumeN Char.isDigit 5 (l.drop "Goodyear, AZ ".length)).isSome

/-- `re.search(r'Goodyear, AZ \d{5}', s)` succeeds. -/
def goodyearSearch (s : String) : Bool := scanAny goodyearAt s.data

/-- Python `\w`. -/
def isWordChar (c : Char) : Bool := c.isAlphanum || c == '_'

/-- `re.search(r'/(\w+)$', s)` group 1: the trailing path segment. -/
def lastSegAux : List Char → Option String
  | [] => none
  | '/' :: rest =>
    if !rest.isEmpty && rest.all isWordChar then some (String.mk rest)
    else lastSegAux rest
  | _ :: rest => lastSegAux rest

/-- The `id` pattern of `extract_homesites`. -/
def lastSegMatch (s : String) : Option String := lastSegAux s.data

/-- `int()` of a digit string. -/
def natOfDigits (l : List Char) : Nat :=
  l.foldl (fun a c => a * 10 + (c.toNat - 48)) 0

/-- `s.replace(',', '')`. -/
def stripCommas (s : String) : String :=
  String.mk (s.data.filter (fun c => !(c == ',')))

/-- Python `s.strip(chars)` for a concrete character set. -/
def stripCharsBoth (cs : List Char) (s : String) : String :=
  String.mk (((s.data.dropWhile (cs.contains ·)).reverse.dropWhile
    (cs.contains ·)).reverse)

/-- Group a reversed digit list into threes with commas (the `{:,}` format
spec). -/
def groupThreeRev : List Char → List Char
  | a :: b :: c :: d :: rest => a :: b :: c :: ',' :: groupThreeRev (d :: rest)
  | l => l

/-- Python `f"{n:,}"`. -/
def commaFormat (n : Nat) : String :=
  String.mk (groupThreeRev (toString n).data.reverse).reverse

/-- The lexicographic minimum of a string list (Python `min` over a set of
strings, order-independent). -/
def strListMin (s : String) (l : List String) : String :=
  l.foldl (fun a b => if strLt b a then b else a) s

/-- The lexicographic maximum of a string list. -/
def strListMax (s : String) (l : List String) : String :=
  l.foldl (fun a b => if strLt a b then b else a) s

/-- The minimum of a numeric list (Python `min` over a set of ints). -/
def natListMin (v : Nat) (l : List Nat) : Nat :=
  l.foldl (fun a b => if b < a then b else a) v

/-- The maximum of a numeric list. -/
def natListMax (v : Nat) (l : List Nat) : Nat :=
  l.foldl (fun a b => if a < b then b else a) v

/-! ## Field extractors (`get_tollbrothers_page.py`)

Each `extract_*` below is the translation of the method of the same name of
`TollBrothersDetailScraper`.  The `try/except` wrappers of the source only
matter where the body can actually raise; those raise points are modelled
explicitly (the `offers` and homesite-`url` type errors below), everything
else in the bodies is total. -/

/-- `None`-or-string to a record value. -/
def optJ : Option String → JVal
  | some s => JVal.vstr s
  | none => JVal.vnull

/-- `soup.find_all('div', class_=lambda x: x and 'home-design' in
x.lower())`. -/
def homeDesignDivs (soup : Node) : List Node :=
  (descOf soup).filter (fun n =>
    isNamed n "div" &&
      (match classAttr n with
        | some c => containsSub (lowerStr c) "home-design"
        | none => false))

/-- `extract_price_range` (lines 150-160): first text node matching
`starting at \$[\d,]+`, stripped; `None` when the pattern never occurs. -/
def extract_price_range (soup : Node) : Option String :=
  ((textsOf soup).find? priceSearch).map pyStrip

/-- `extract_beds_baths_range` (lines 162-185): collect the stripped
`\d+\s*(?:bd|ba)` fragments of the home-design sections into bed and bath
sets (`elif` gives `bd` priority), and report `min - max` of each set, or
`None` on an empty set. -/
def extract_beds_baths_range (soup : Node) : Option String × Option String :=
  let specs := (homeDesignDivs soup).flatMap (fun d => (textsOf d).filter bdbaSearch)
  let beds := (specs.filter (fun s => containsSub s "bd")).map pyStrip
  let baths := (specs.filter (fun s =>
    !containsSub s "bd" && containsSub s "ba")).map pyStrip
  (match beds with
    | [] => none
    | b :: bs => some (strListMin b bs ++ " - " ++ strListMax b bs),
   match baths with
    | [] => none
    | b :: bs => some (strListMin b bs ++ " - " ++ strListMax b bs))

/-- The integer parsed from one square-footage fragment:
`int(re.search(r'(\d{1,3}(?:,\d{3})*)', t).group(1).replace(',', ''))`. -/
def sqftParse (s : String) : Option Nat :=
  (searchGroupedNum s.data).map (fun ds =>
    natOfDigits (ds.filter (fun c => !(c == ','))))

/-- The square-footage integers collected by `extract_sqft_range`: the
first matching text of each home-design section, parsed. -/
def sqftValues (soup : Node) : List Nat :=
  (homeDesignDivs soup).filterMap (fun d =>
    ((textsOf d).find? sqftTextSearch).bind sqftParse)

/-- `extract_sqft_range` (lines 187-209): `f"{min:,} - {max:,}"` over the
collected integers, `None` when none were found. -/
def extract_sqft_range (soup : Node) : Option String :=
  match sqftValues soup with
  | [] => none
  | v :: vs =>
    some (commaFormat (natListMin v vs) ++ " - " ++ commaFormat (natListMax v vs))

/-- `div` items with `'amenity' in class.lower()` under a section. -/
def amenityDivs (sec : Node) : List Node :=
  (descOf sec).filter (fun n =>
    isNamed n "div" &&
      (match classAttr n with
        | some c => containsSub (lowerStr c) "amenity"
        | none => false))

/-- The filter of line 216: a `section` whose `.string` mentions
`Elevate the Everyday`. -/
def amenSectionP (n : Node) : Bool :=
  isNamed n "section" &&
    (match nodeString n with
      | some s => containsSub s "Elevate the Everyday"
      | none => false)

/-- `extract_amenities` (lines 211-231): the amenity items of the section
whose `.string` mentions `Elevate the Everyday`; items without an `h3` are
skipped, a missing `p` yields an empty description. -/
def extract_amenities (soup : Node) : List JVal :=
  match (descOf soup).find? amenSectionP with
  | none => []
  | some sec =>
    (amenityDivs sec).filterMap (fun item =>
      match (descOf item).find? (fun n => isNamed n "h3") with
      | none => none
      | some nm =>
        some (JVal.vobj [
          ("name", JVal.vstr (pyStrip (nodeText nm))),
          ("description",
            match (descOf item).find? (fun n => isNamed n "p") with
            | some d => JVal.vstr (pyStrip (nodeText d))
            | none => JVal.vstr ""),
          ("icon_url", JVal.vstr "")]))

/-- `extract_phone` (lines 233-242): the first text node matching
`\d{3}-\d{3}-\d{4}` stripped, the empty string otherwise. -/
def extract_phone (soup : Node) : String :=
  match (textsOf soup).find? phoneSearch with
  | some t => pyStrip t
  | none => ""

/-- The filter of line 247: a `div` whose `.string` matches
`Goodyear, AZ \d{5}`. -/
def goodyearDivP (n : Node) : Bool :=
  isNamed n "div" &&
    (match nodeString n with
      | some s => goodyearSearch s
      | none => false)

/-- `extract_address` (lines 244-253): the text of the first `div` whose
`.string` matches `Goodyear, AZ \d{5}`, the empty string otherwise. -/
def extract_address (soup : Node) : String :=
  match (descOf soup).find? goodyearDivP with
  | some d => pyStrip (nodeText d)
  | none => ""

/-- The filter of line 258: a `div` whose `.string` mentions the fixed
master-planned-community phrase. -/
def descDivP (n : Node) : Bool :=
  isNamed n "div" &&
    (match nodeString n with
      | some s =>
        containsSub s "Located in an amenity-rich master-planned community"
      | none => false)

/-- `extract_description` (lines 255-264): the text of the first `div`
whose `.string` mentions the fixed master-planned-community phrase, the
empty string otherwise. -/
def extract_description (soup : Node) : String :=
  match (descOf soup).find? descDivP with
  | some d => pyStrip (nodeText d)
  | none => ""

/-- The filter of line 314: any tag with `id="toScroll-gallery"`. -/
def galleryP (n : Node) : Bool := getAttr n "id" == some "toScroll-gallery"

/-- `extract_images` (lines 307-324): the non-`data:` image sources of the
`toScroll-gallery` element, in order; empty when the gallery is absent. -/
def extract_images (soup : Node) : List String :=
  match (descOf soup).find? galleryP with
  | some gallery =>
    ((descOf gallery).filter (fun n => isNamed n "img")).filterMap (fun i =>
      match getAttr i "src" with
      | some s => if !s.isEmpty && !startsWithL s.data "data:".data then some s else none
      | none => none)
  | none => []

/-- `extract_homeplans` (lines 326-353): one plan per home-design section
that has an `h3` and at least one `\d+\s*(?:bd|ba|sqft)` fragment; the
first `bd`/`ba`/`sqft` fragment fills the respective detail, otherwise
an empty string. -/
def extract_homeplans (soup : Node) : List JVal :=
  (homeDesignDivs soup).filterMap (fun design =>
    match (descOf design).find? (fun n => isNamed n "h3") with
    | none => none
    | some nm =>
      let details := (textsOf design).filter bdbaSqftSearch
      if details.isEmpty then none
      else
        some (JVal.vobj [
          ("name", JVal.vstr (pyStrip (nodeText nm))),
          ("url", JVal.vstr ""),
          ("details", JVal.vobj [
            ("price", JVal.vstr ""),
            ("beds", JVal.vstr (((details.find? (fun d => containsSub d "bd")).getD ""))),
            ("baths", JVal.vstr (((details.find? (fun d => containsSub d "ba")).getD ""))),
            ("sqft", JVal.vstr (((details.find? (fun d => containsSub d "sqft")).getD ""))),
            ("status", JVal.vstr ""),
            ("image_url", JVal.vstr "")]),
          ("includedFeatures", JVal.varr [])]))

/-! ## Structured metadata (`extract_jsonld_data`, lines 355-369)

`json.loads` is standard-library code outside the repository; it enters as
the parameter `parse : String → Option JVal`, `none` standing for a raised
decoding error. -/

/-- The `script type="application/ld+json"` blocks of a document. -/
def ldScripts (soup : Node) : List Node :=
  (descOf soup).filter (fun n =>
    isNamed n "script" && getAttr n "type" == some "application/ld+json")

/-- The `@type` allow-list test: `data.get('@type') in ['SingleFamilyResidence',
'Residence', 'WebPage', 'Place', 'Organization']`. -/
def allowedType (fs : List (String × JVal)) : Bool :=
  match dlookup fs "@type" with
  | some (JVal.vstr t) =>
    ["SingleFamilyResidence", "Residence", "WebPage", "Place", "Organization"].contains t
  | _ => false

/-- One loop iteration of `extract_jsonld_data`: a block whose string is
missing, fails to decode, is not a dict, or has a disallowed `@type`
contributes nothing; an accepted dict is merged by `update`. -/
def jsonldStep (parse : String → Option JVal) (acc : List (String × JVal))
    (script : Node) : List (String × JVal) :=
  match nodeString script with
  | none => acc
  | some str =>
    match parse str with
    | some (JVal.vobj fs) => if allowedType fs then dictUpdate acc fs else acc
    | _ => acc

/-- `extract_jsonld_data`. -/
def extract_jsonld_data (parse : String → Option JVal) (soup : Node) :
    List (String × JVal) :=
  (ldScripts soup).foldl (jsonldStep parse) []

/-- The acceptance test of one block, as an `Option`: the dict it
contributes when it decodes and passes the allow-list. -/
def acceptBlock (parse : String → Option JVal) (script : Node) :
    Option (List (String × JVal)) :=
  match nodeString script with
  | none => none
  | some str =>
    match parse str with
    | some (JVal.vobj fs) => if allowedType fs then some fs else none
    | _ => none

/-- The accepted blocks of a document, in order (a specification view of
the same loop, used to state the merge properties). -/
def acceptedObjs (parse : String → Option JVal) (soup : Node) :
    List (List (String × JVal)) :=
  (ldScripts soup).filterMap (acceptBlock parse)

/-- First-defined choice on optional values (the shape `dlookup` takes over
an append). -/
def dfirst (a b : Option JVal) : Option JVal :=
  match a with
  | some v => some v
  | none => b

/-! ## Homesites (`extract_homesites`, lines 371-485)

The secondary fetch of a homesite detail page goes through
`self._safe_get_page`; its outcome enters as the parameter
`fetch : url → wait_class → Option Node`. -/

/-- The address f-string of lines 436/515:
`f"{streetAddress}, {addressLocality}, {addressRegion} {postalCode}".strip(', ')`. -/
def buildAddr (ad : List (String × JVal)) : String :=
  stripCharsBoth [',', ' ']
    (pyStr (jgetD ad "streetAddress" (JVal.vstr "")) ++ ", " ++
     pyStr (jgetD ad "addressLocality" (JVal.vstr "")) ++ ", " ++
     pyStr (jgetD ad "addressRegion" (JVal.vstr "")) ++ " " ++
     pyStr (jgetD ad "postalCode" (JVal.vstr "")))

/-- The supplementary image loop of lines 454-457: append each `img` source
that is present, non-empty, not a `data:` URL and not already collected. -/
def appendImgScan (images : List JVal) : List Node → List JVal
  | [] => images
  | img :: rest =>
    match getAttr img "src" with
    | some s =>
      if !s.isEmpty && !startsWithL s.data "data:".data && !jmem (JVal.vstr s) images then
        appendImgScan (images ++ [JVal.vstr s]) rest
      else appendImgScan images rest
    | none => appendImgScan images rest

/-- The `img` tags of a document (`detail_soup.find_all('img')`). -/
def imgTags (detail : Node) : List Node :=
  (descOf detail).filter (fun n => isNamed n "img")

/-- Lines 453-457: scan the whole detail page for more images only when
fewer than two were collected (`if not images or len(images) < 2`). -/
def homesiteFinalImages (images : List JVal) (imgs : List Node) : List JVal :=
  if images.length < 2 then appendImgScan images imgs else images

/-- The fields of one homesite record, before the dict literal of lines
462-478 is formed. -/
structure HsData where
  name : Option String
  plan : Option String
  id : Option String
  address : Option String
  price : Option String
  beds : Option String
  baths : Option String
  sqft : Option String
  status : Option String
  url : String
  latitude : JVal
  longitude : JVal
  overview : JVal
  images : List JVal

/-- `int(baths) if baths and baths.isdigit() else None` (line 469). -/
def pyBathsVal : Option String → JVal
  | some s =>
    if !s.isEmpty && s.data.all Char.isDigit then
      JVal.vint (natOfDigits s.data)
    else JVal.vnull
  | none => JVal.vnull

/-- The dict literal of lines 462-478. -/
def hsRecord (d : HsData) : JVal :=
  JVal.vobj [
    ("name", optJ d.name),
    ("plan", optJ d.plan),
    ("id", optJ d.id),
    ("address", optJ d.address),
    ("price", optJ d.price),
    ("beds", optJ d.beds),
    ("baths", pyBathsVal d.baths),
    ("sqft", optJ d.sqft),
    ("status", optJ d.status),
    ("image_url", match d.images with
      | [] => JVal.vnull
      | x :: _ => x),
    ("url", JVal.vstr d.url),
    ("latitude", d.latitude),
    ("longitude", d.longitude),
    ("overview", d.overview),
    ("images", JVal.varr d.images)]

/-- The model-card elements:
`soup.select('div.modelCardWrap__adjust.ModelCard_modelCardContainer__lXz5R')`. -/
def cardsOf (soup : Node) : List Node :=
  (descOf soup).filter (fun n =>
    isNamed n "div" && hasClass n "modelCardWrap__adjust" &&
      hasClass n "ModelCard_modelCardContainer__lXz5R")

/-- The per-card body of `extract_homesites` (lines 378-479).  `none` means
the card is skipped: no/empty link, or the raise of `re.search` on a
non-string structured-metadata `url`, absorbed by the per-card handler. -/
def hsData (parse : String → Option JVal) (fetch : String → String → Option Node)
    (card : Node) : Option HsData :=
  let a? := (descOf card).find? (fun n =>
    isNamed n "a" && hasClass n "ModelCard_modelCardContainer__lXz5R")
  match (match a? with
          | some an => getAttr an "href"
          | none => none) with
  | none => none
  | some u =>
    if u.isEmpty then none
    else
      let url := if startsWithL u.data "http".data then u
                 else "https://www.tollbrothers.com" ++ u
      let img? := (descOf card).find? (fun n =>
        isNamed n "img" && hasClass n "BlurBackgroundFill_modelCardImg__fpCCc")
      let image_url : Option String :=
        match img? with
        | some i => getAttr i "src"
        | none => none
      let name := ((descOf card).find? (fun n =>
        isNamed n "h4" && hasClass n "ModelCard_modelName__XzUo2")).map
          (fun n => pyStrip (nodeText n))
      let price := ((descOf card).find? (fun n =>
        isNamed n "p" && hasClass n "ModelCard_modelPrice__oqOXq")).map
          (fun n => pyStrip (nodeText n))
      let beds := ((descOf card).find? (fun n =>
        isNamed n "p" && hasClass n "tracking_bedRange")).map
          (fun n => pyStrip (nodeText n))
      let baths := ((descOf card).find? (fun n =>
        isNamed n "p" && hasClass n "tracking_bathRange")).map
          (fun n => pyStrip (nodeText n))
      let sqft := ((descOf card).find? (fun n =>
        isNamed n "p" && hasClass n "tracking_sqftRange")).map
          (fun n => stripCommas (pyStrip (nodeText n)))
      let status := ((descOf card).find? (fun n =>
        isNamed n "div" && hasClass n "ModelCard_modelCardCallout__MdHUW")).map
          (fun n => pyStrip (nodeText n))
      let images0 : List JVal :=
        match image_url with
        | some s => if s.isEmpty then [] else [JVal.vstr s]
        | none => []
      match fetch url "body" with
      | none =>
        some ⟨name, none, none, none, price, beds, baths, sqft, status, url,
              JVal.vnull, JVal.vnull, JVal.vnull, images0⟩
      | some detail =>
        let jsonld := extract_jsonld_data parse detail
        let plan := ((descOf detail).find? (fun n =>
          isNamed n "h1" || isNamed n "h2" || isNamed n "h3")).map
            (fun n => pyStrip (nodeText n))
        if jsonld.isEmpty then
          some ⟨name, plan, none, none, price, beds, baths, sqft, status, url,
                JVal.vnull, JVal.vnull, JVal.vnull,
                homesiteFinalImages images0 (imgTags detail)⟩
        else
          let geo := match dlookup jsonld "geo" with
            | some (JVal.vobj g) =>
              (jgetD g "latitude" JVal.vnull, jgetD g "longitude" JVal.vnull)
            | _ => (JVal.vnull, JVal.vnull)
          let overview := jgetD jsonld "description" JVal.vnull
          let address := match dlookup jsonld "address" with
            | some (JVal.vobj ad) => some (buildAddr ad)
            | _ => none
          let images1 := match dlookup jsonld "image" with
            | some (JVal.varr l) => l
            | some (JVal.vstr s) => [JVal.vstr s]
            | _ => images0
          match dlookup jsonld "url" with
          | some (JVal.vstr s) =>
            some ⟨name, plan, lastSegMatch s, address, price, beds, baths, sqft,
                  status, url, geo.1, geo.2, overview,
                  homesiteFinalImages images1 (imgTags detail)⟩
          | some _ => none
          | none =>
            some ⟨name, plan, none, address, price, beds, baths, sqft,
                  status, url, geo.1, geo.2, overview,
                  homesiteFinalImages images1 (imgTags detail)⟩

/-- One homesite record or a skipped card. -/
def mkHomesite (parse : String → Option JVal) (fetch : String → String → Option Node)
    (card : Node) : Option JVal :=
  (hsData parse fetch card).map hsRecord

/-- `extract_homesites`. -/
def extract_homesites (parse : String → Option JVal)
    (fetch : String → String → Option Node) (soup : Node) : List JVal :=
  (cardsOf soup).filterMap (mkHomesite parse fetch)

/-! ## Community record assembly (`get_community_details`, lines 487-588) -/

/-- `jsonld.get('priceRange', None) or jsonld.get('offers', {}).get('price',
None)` (line 522).  A truthy `priceRange` short-circuits; otherwise a
non-dict `offers` raises `AttributeError`, which the enclosing handler
turns into a `None` result for the whole record — hence the `Option`. -/
def pyGetPrice (jsonld : List (String × JVal)) : Option JVal :=
  let pr := jgetD jsonld "priceRange" JVal.vnull
  if jTruthy pr then some pr
  else
    match jgetD jsonld "offers" (JVal.vobj []) with
    | JVal.vobj ofs => some (jgetD ofs "price" JVal.vnull)
    | _ => none

/-- Line 533: the city of the structured-metadata address, `None` when the
address entry is missing or not a dict. -/
def cityOf (jsonld : List (String × JVal)) : JVal :=
  match jgetD jsonld "address" (JVal.vobj []) with
  | JVal.vobj ad => jgetD ad "addressLocality" JVal.vnull
  | _ => JVal.vnull

/-- Line 534: the state, same guard. -/
def stateOf (jsonld : List (String × JVal)) : JVal :=
  match jgetD jsonld "address" (JVal.vobj []) with
  | JVal.vobj ad => jgetD ad "addressRegion" JVal.vnull
  | _ => JVal.vnull

/-- Line 519: the preferred DOM description node,
`soup.find('p', class_='CommunityOverview_overviewDescription__0bJS6 tracking_prop_body')`
(a class string with a space matches the exact attribute value). -/
def overviewP (soup : Node) : Option Node :=
  (descOf soup).find? (fun n =>
    isNamed n "p" &&
      classAttr n == some "CommunityOverview_overviewDescription__0bJS6 tracking_prop_body")

/-- Lines 511/562: `community_name = jsonld.get('name', '')`, emitted as
`community_name or ''`. -/
def communityName (jsonld : List (String × JVal)) : JVal :=
  let n := jgetD jsonld "name" (JVal.vstr "")
  if jTruthy n then n else JVal.vstr ""

/-- Lines 512-515: the address string, empty unless the structured metadata
holds an address dict. -/
def communityAddress (jsonld : List (String × JVal)) : String :=
  match dlookup jsonld "address" with
  | some (JVal.vobj ad) => buildAddr ad
  | _ => ""

/-- Line 516: `jsonld.get('telephone', '')`. -/
def communityPhone (jsonld : List (String × JVal)) : JVal :=
  jgetD jsonld "telephone" (JVal.vstr "")

/-- Lines 519-520: the overview paragraph of the page wins; otherwise
`jsonld.get('description', '') or ''`. -/
def communityDescription (jsonld : List (String × JVal)) (soup : Node) : JVal :=
  match overviewP soup with
  | some p => JVal.vstr (pyStrip (nodeText p))
  | none =>
    let dj := jgetD jsonld "description" (JVal.vstr "")
    if jTruthy dj then dj else JVal.vstr ""

/-- Lines 524-528: the coordinates of a structured-metadata `geo` dict. -/
def communityGeo (jsonld : List (String × JVal)) : JVal × JVal :=
  match dlookup jsonld "geo" with
  | some (JVal.vobj g) =>
    (jgetD g "latitude" JVal.vnull, jgetD g "longitude" JVal.vnull)
  | _ => (JVal.vnull, JVal.vnull)

/-- Lines 539-546: structured-metadata images, falling back to the gallery
extractor when they leave the list empty. -/
def communityImages (parse : String → Option JVal) (soup : Node) : List JVal :=
  let jsonld := extract_jsonld_data parse soup
  let imagesJ : List JVal := match dlookup jsonld "image" with
    | some (JVal.varr l) => l
    | some (JVal.vstr s) => [JVal.vstr s]
    | _ => []
  if imagesJ.isEmpty then (extract_images soup).map JVal.vstr else imagesJ

/-- The dict literal of lines 560-583 (`community_info`), parameterized by
the `price` of line 522.  (`amenities if amenities else []` is the list
itself, likewise `homeplans`.) -/
def communityRecord (parse : String → Option JVal)
    (fetch : String → String → Option Node) (now url : String) (soup : Node)
    (price : JVal) : JVal :=
  let jsonld := extract_jsonld_data parse soup
  let bb := extract_beds_baths_range soup
  JVal.vobj [
      ("timestamp", JVal.vstr now),
      ("name", communityName jsonld),
      ("url", JVal.vstr url),
      ("status", JVal.vnull),
      ("price_from", price),
      ("address", JVal.vstr (communityAddress jsonld)),
      ("phone", communityPhone jsonld),
      ("description", communityDescription jsonld soup),
      ("images", JVal.varr (communityImages parse soup)),
      ("location", JVal.vobj [
        ("latitude", (communityGeo jsonld).1),
        ("longitude", (communityGeo jsonld).2),
        ("address", JVal.vobj [
          ("city", cityOf jsonld),
          ("state", stateOf jsonld),
          ("market", JVal.vnull)])]),
      ("details", JVal.vobj [
        ("price_range", price),
        ("sqft_range", optJ (extract_sqft_range soup)),
        ("bed_range", optJ bb.1),
        ("bath_range", optJ bb.2),
        ("stories_range", JVal.vstr ""),
        ("community_count", JVal.vint 0)]),
      ("amenities", JVal.varr (extract_amenities soup)),
      ("homeplans", JVal.varr (extract_homeplans soup)),
      ("homesites", JVal.varr (extract_homesites parse fetch soup)),
      ("nearbyplaces", JVal.varr [])]

/-- Lines 508-588: the record built from one successfully fetched community
page.  Returns `none` exactly on the `offers` raise path, absorbed by the
enclosing handler. -/
def assembleCommunity (parse : String → Option JVal)
    (fetch : String → String → Option Node) (now url : String) (soup : Node) :
    Option JVal :=
  match pyGetPrice (extract_jsonld_data parse soup) with
  | none => none
  | some price => some (communityRecord parse fetch now url soup price)

/-- The selector fallback chain of lines 490-496. -/
def selectorChain : List String :=
  ["SearchProductCard_card__htFY3", "SearchProductCard", "community-details",
   "product-card", "body"]

/-- Lines 498-503: try the selectors in order, keeping the first page
delivered. -/
def firstFetch (fetch : String → String → Option Node) (url : String) :
    List String → Option Node
  | [] => none
  | sel :: rest =>
    match fetch url sel with
    | some soup => some soup
    | none => firstFetch fetch url rest

/-- `get_community_details`. -/
def get_community_details (parse : String → Option JVal)
    (fetch : String → String → Option Node) (now url : String) : Option JVal :=
  match firstFetch fetch url selectorChain with
  | none => none
  | some soup => assembleCommunity parse fetch now url soup

/-! ## The retry loop (`_safe_get_page`)

Both files carry an `_safe_get_page` with `max_retries = 3` and
`retry_delay = 5`; they differ only in the backoff expression (line 138 of
`get_tollbrothers_page.py` sleeps `retry_delay * (attempt + 1)`, line 146
of `get_tollbrothers_api_links.py` sleeps the constant `retry_delay`).
One attempt of the loop body either fails to (re)create the browser
session (immediate `None`), raises somewhere in navigate / wait /
serialize, or produces a parsed document. -/

/-- The outcome of one attempt of the `_safe_get_page` body. -/
inductive AttemptOutcome (α : Type) where
  | setupFail : AttemptOutcome α
  | raiseExc : AttemptOutcome α
  | ok : α → AttemptOutcome α

/-- The observable trace of one `_safe_get_page` call: its result, how
often the session was torn down (and hence recreated on the following
attempt), and the sleeps between attempts, in order. -/
structure FetchTrace (α : Type) where
  result : Option α
  teardowns : Nat
  delays : List Nat

/-- The `for attempt in range(max_retries)` loop: on a raise before the
final attempt, sleep `delayOf attempt` and tear the session down; on the
final raise, or on a failed session setup, return `None`. -/
def retryLoop {α : Type} (outcomes : Nat → AttemptOutcome α) (delayOf : Nat → Nat)
    (maxRetries : Nat) : Nat → Nat → FetchTrace α
  | _, 0 => ⟨none, 0, []⟩
  | attempt, fuel + 1 =>
    match outcomes attempt with
    | .setupFail => ⟨none, 0, []⟩
    | .ok d => ⟨some d, 0, []⟩
    | .raiseExc =>
      if attempt < maxRetries - 1 then
        let t := retryLoop outcomes delayOf maxRetries (attempt + 1) fuel
        ⟨t.result, t.teardowns + 1, delayOf attempt :: t.delays⟩
      else ⟨none, 0, []⟩

/-- `_safe_get_page` of `get_tollbrothers_page.py` (lines 78-148):
`max_retries = 3`, sleep `retry_delay * (attempt + 1) = 5 * (attempt + 1)`. -/
def safe_get_page_detail {α : Type} (outcomes : Nat → AttemptOutcome α) :
    FetchTrace α :=
  retryLoop outcomes (fun attempt => 5 * (attempt + 1)) 3 0 3

/-- `_safe_get_page` of `get_tollbrothers_api_links.py` (lines 100-156):
`max_retries = 3`, sleep the constant `retry_delay = 5`. -/
def safe_get_page_links {α : Type} (outcomes : Nat → AttemptOutcome α) :
    FetchTrace α :=
  retryLoop outcomes (fun _ => 5) 3 0 3

/-! ## Statement helpers -/

/-- Field access on a record value. -/
def jfield (v : JVal) (k : String) : Option JVal :=
  match v with
  | .vobj l => dlookup l k
  | _ => none

/-- Nested field access. -/
def jfield2 (v : JVal) (k1 k2 : String) : Option JVal :=
  (jfield v k1).bind (fun w => jfield w k2)

/-- Doubly nested field access. -/
def jfield3 (v : JVal) (k1 k2 k3 : String) : Option JVal :=
  (jfield2 v k1 k2).bind (fun w => jfield w k3)

/-- The keys of a record value. -/
def jkeys : JVal → List String
  | .vobj l => dkeys l
  | _ => []

/-- Is this value an integer or `None`? -/
def isIntOrNull : JVal → Bool
  | .vnull => true
  | .vint _ => true
  | _ => false

/-- Is this value a string or `None`? -/
def isStrOrNull : JVal → Bool
  | .vnull => true
  | .vstr _ => true
  | _ => false

/-- The top-level keys of a community record (§3 of the specification). -/
def communityKeys : List String :=
  ["timestamp", "name", "url", "status", "price_from", "address", "phone",
   "description", "images", "location", "details", "amenities", "homeplans",
   "homesites", "nearbyplaces"]

/-- The keys of `location`. -/
def locationKeys : List String := ["latitude", "longitude", "address"]

/-- The keys of `location.address`. -/
def locAddressKeys : List String := ["city", "state", "market"]

/-- The keys of `details`. -/
def detailsKeys : List String :=
  ["price_range", "sqft_range", "bed_range", "bath_range", "stories_range",
   "community_count"]

/-- The keys of a homesite record. -/
def homesiteKeys : List String :=
  ["name", "plan", "id", "address", "price", "beds", "baths", "sqft",
   "status", "image_url", "url", "latitude", "longitude", "overview",
   "images"]

/-! ## Concrete documents used by witnesses and counterexamples -/

/-- A page with none of the targeted markers. -/
def emptySoup : Node := Node.elem "html" [] []

/-- A decoder that fails on everything (no structured blocks decode). -/
def parseNone : String → Option JVal := fun _ => none

/-- A fetch that always delivers the empty page. -/
def fetchEmpty : String → String → Option Node := fun _ _ => some emptySoup

/-- The record assembled from the empty page. -/
def exCommunityEmpty : JVal :=
  (get_community_details parseNone fetchEmpty "2024-01-01T00:00:00.000000"
    "https://www.tollbrothers.com/c").getD (JVal.vobj [])

/-- A model card whose bed text is the numeral `3` and bath text `2`. -/
def exCard : Node :=
  Node.elem "div"
    [("class", "modelCardWrap__adjust ModelCard_modelCardContainer__lXz5R")] [
    Node.elem "a"
      [("class", "ModelCard_modelCardContainer__lXz5R"), ("href", "/home1")] [],
    Node.elem "p" [("class", "tracking_bedRange")] [Node.text "3"],
    Node.elem "p" [("class", "tracking_bathRange")] [Node.text "2"]]

/-- A listing page holding the one model card. -/
def exSoup : Node := Node.elem "html" [] [exCard]

/-- The homesite detail page: one structured block and two document images
`B`, `C`. -/
def exDetail : Node := Node.elem "html" [] [
  Node.elem "script" [("type", "application/ld+json")] [Node.text "LD1"],
  Node.elem "img" [("src", "B")] [],
  Node.elem "img" [("src", "C")] []]

/-- The decoder for `exDetail`: its block is a `Residence` carrying the
image list `[A, B]`. -/
def exParse : String → Option JVal := fun s =>
  if s == "LD1" then
    some (JVal.vobj [("@type", JVal.vstr "Residence"),
      ("image", JVal.varr [JVal.vstr "A", JVal.vstr "B"])])
  else none

/-- The fetch serving the homesite detail page. -/
def exFetch : String → String → Option Node := fun u _ =>
  if u == "https://www.tollbrothers.com/home1" then some exDetail else none

/-- The one homesite record scraped from `exSoup`. -/
def exHomesite : JVal :=
  (extract_homesites exParse exFetch exSoup).headD (JVal.vobj [])

/-- Two failed attempts, then success. -/
def exOutcomes : Nat → AttemptOutcome Unit := fun n =>
  if n < 2 then AttemptOutcome.raiseExc else AttemptOutcome.ok ()

/-- Three failed attempts. -/
def exOutcomesFail : Nat → AttemptOutcome Unit := fun _ =>
  AttemptOutcome.raiseExc

/-- Two home-design sections whose first square-footage fragments are
`1,250 sqft` and `1250 sqft`. -/
def sqftSoupComma : Node := Node.elem "html" [] [
  Node.elem "div" [("class", "home-design")] [Node.text "1,250 sqft"],
  Node.elem "div" [("class", "home-design")] [Node.text "1250 sqft"]]

/-- Two home-design sections with fragments `985 sqft` and `1,250 sqft`:
numeric order and string order of the parsed values disagree. -/
def sqftSoupOrder : Node := Node.elem "html" [] [
  Node.elem "div" [("class", "home-design")] [Node.text "985 sqft"],
  Node.elem "div" [("class", "home-design")] [Node.text "1,250 sqft"]]

/-- A page with two accepted structured blocks and one malformed block
between them. -/
def jsonldSoup : Node := Node.elem "html" [] [
  Node.elem "script" [("type", "application/ld+json")] [Node.text "GOOD1"],
  Node.elem "script" [("type", "application/ld+json")] [Node.text "BAD"],
  Node.elem "script" [("type", "application/ld+json")] [Node.text "GOOD2"]]

/-- The decoder for `jsonldSoup`: `BAD` raises, the two good blocks are
allow-listed dicts; both define `name`, only the first defines `telephone`,
only the second defines `url`. -/
def jsonldParse : String → Option JVal := fun s =>
  if s == "GOOD1" then
    some (JVal.vobj [("@type", JVal.vstr "Place"),
      ("name", JVal.vstr "First"), ("telephone", JVal.vstr "480-555-1234")])
  else if s == "GOOD2" then
    some (JVal.vobj [("@type", JVal.vstr "WebPage"),
      ("name", JVal.vstr "Second"), ("url", JVal.vstr "https://t.co/x")])
  else none

/-- A community page whose structured name is `Avalon Estates` while the
visible DOM shows `Avalon`, and which carries an overview paragraph; the
structured block also has a description that must lose to the paragraph. -/
def avalonSoup : Node := Node.elem "html" [] [
  Node.elem "script" [("type", "application/ld+json")] [Node.text "AVALON"],
  Node.elem "h1" [] [Node.text "Avalon"],
  Node.elem "p"
    [("class", "CommunityOverview_overviewDescription__0bJS6 tracking_prop_body")]
    [Node.text "A richer curated copy."]]

/-- The decoder for `avalonSoup`. -/
def avalonParse : String → Option JVal := fun s =>
  if s == "AVALON" then
    some (JVal.vobj [("@type", JVal.vstr "Residence"),
      ("name", JVal.vstr "Avalon Estates"),
      ("description", JVal.vstr "Metadata description.")])
  else none

/-- The overview paragraph of `avalonSoup`. -/
def avalonOverviewP : Node :=
  Node.elem "p"
    [("class", "CommunityOverview_overviewDescription__0bJS6 tracking_prop_body")]
    [Node.text "A richer curated copy."]

/-- A fetch with no secondary pages. -/
def fetchNone : String → String → Option Node := fun _ _ => none

/-- The record assembled from `avalonSoup`. -/
def exCommunityAvalon : JVal :=
  (assembleCommunity avalonParse fetchNone "2024-01-01T00:00:00.000000"
    "https://www.tollbrothers.com/avalon" avalonSoup).getD (JVal.vobj [])

/-- A page carrying the Goodyear address line and the fixed description
phrase, each as a `div` with a single string. -/
def goodyearSoup : Node := Node.elem "html" [] [
  Node.elem "div" [] [Node.text "123 Main St, Goodyear, AZ 85338"],
  Node.elem "div" [] [Node.text
    "Located in an amenity-rich master-planned community with pools."]]

/-- A page showing a valid address of another city and a differently worded
description: no marker matches. -/
def phoenixSoup : Node := Node.elem "html" [] [
  Node.elem "div" [] [Node.text "456 Elm St, Phoenix, AZ 85001"],
  Node.elem "div" [] [Node.text "A wonderful gated community."]]

/-! ## General lemmas -/

mutual

/-- `jeq` is reflexive. -/
theorem jeq_refl : ∀ a : JVal, jeq a a = true
  | .vnull => rfl
  | .vbool b => by simp [jeq]
  | .vstr s => by simp [jeq]
  | .vint n => by simp [jeq]
  | .varr l => by simpa [jeq] using jeqList_refl l
  | .vobj l => by simpa [jeq] using jeqObj_refl l

theorem jeqList_refl : ∀ l : List JVal, jeqList l l = true
  | [] => rfl
  | a :: as => by simp [jeqList, jeq_refl a, jeqList_refl as]

theorem jeqObj_refl : ∀ l : List (String × JVal), jeqObj l l = true
  | [] => rfl
  | (k, v) :: rest => by simp [jeqObj, jeq_refl v, jeqObj_refl rest]

end

/-- A failed `jeq` test separates values. -/
theorem jeq_ne (a b : JVal) (h : jeq a b = false) : a ≠ b := by
  intro e
  rw [e, jeq_refl] at h
  exact Bool.noConfusion h

/-- The default head of a non-empty list is a member. -/
theorem headD_mem {α : Type} (l : List α) (d : α) (h : l ≠ []) :
    l.headD d ∈ l := by
  cases l with
  | nil => exact absurd rfl h
  | cons a t => exact List.mem_cons_self a t

/-- A search over a list none of whose elements passes the test fails. -/
theorem find?_eq_none_of_any_false {α : Type} {l : List α} {p : α → Bool}
    (h : l.any p = false) : l.find? p = none := by
  rw [List.find?_eq_none]
  intro x hx hpx
  have ht : l.any p = true := List.any_eq_true.mpr ⟨x, hx, hpx⟩
  rw [h] at ht
  exact Bool.noConfusion ht

/-! ## C1 -/

/-- C1 (amended): a field extractor given a document lacking its targeted
marker returns its own empty sentinel and raises nothing — `None` for
`extract_price_range` and `extract_sqft_range` and for both components of
`extract_beds_baths_range`, the empty string for `extract_phone`,
`extract_address` and `extract_description`, and the empty list for
`extract_amenities`, `extract_images` and `extract_homeplans`.  Each
extractor is a total function of the document alone, so a failure inside
one cannot change the value of another. -/
theorem extractors_sentinel_on_missing_marker (soup : Node) :
    ((textsOf soup).any priceSearch = false → extract_price_range soup = none) ∧
    (homeDesignDivs soup = [] → extract_beds_baths_range soup = (none, none)) ∧
    (homeDesignDivs soup = [] → extract_sqft_range soup = none) ∧
    ((descOf soup).any amenSectionP = false → extract_amenities soup = []) ∧
    ((textsOf soup).any phoneSearch = false → extract_phone soup = "") ∧
    ((descOf soup).any goodyearDivP = false → extract_address soup = "") ∧
    ((descOf soup).any descDivP = false → extract_description soup = "") ∧
    ((descOf soup).any galleryP = false → extract_images soup = []) ∧
    (homeDesignDivs soup = [] → extract_homeplans soup = []) := by
  refine ⟨fun h => ?_, fun h => ?_, fun h => ?_, fun h => ?_, fun h => ?_,
    fun h => ?_, fun h => ?_, fun h => ?_, fun h => ?_⟩
  · simp [extract_price_range, find?_eq_none_of_any_false h]
  · simp [extract_beds_baths_range, h]
  · simp [extract_sqft_range, sqftValues, h]
  · simp [extract_amenities, find?_eq_none_of_any_false h]
  · simp [extract_phone, find?_eq_none_of_any_false h]
  · simp [extract_address, find?_eq_none_of_any_false h]
  · simp [extract_description, find?_eq_none_of_any_false h]
  · simp [extract_images, find?_eq_none_of_any_false h]
  · simp [extract_homeplans, h]

/-- C1 witness: on the empty page every extractor yields its sentinel. -/
theorem extractors_sentinel_on_missing_marker_witness :
    extract_price_range emptySoup = none ∧
    extract_beds_baths_range emptySoup = (none, none) ∧
    extract_sqft_range emptySoup = none ∧
    extract_amenities emptySoup = [] ∧
    extract_phone emptySoup = "" ∧
    extract_address emptySoup = "" ∧
    extract_description emptySoup = "" ∧
    extract_images emptySoup = [] ∧
    extract_homeplans emptySoup = [] := by
  obtain ⟨h1, h2, h3, h4, h5, h6, h7, h8, h9⟩ :=
    extractors_sentinel_on_missing_marker emptySoup
  exact ⟨h1 rfl, h2 rfl, h3 rfl, h4 rfl, h5 rfl, h6 rfl, h7 rfl, h8 rfl,
    h9 rfl⟩

/-- C1 counterexample: on a document lacking every marker, `extract_phone`,
`extract_address` and `extract_description` return the empty string and the
list extractors return the empty list — the Python value `''` (embedded as
`vstr ""`) is not `None` (`vnull`), so not every extractor returns null. -/
theorem extract_phone_not_null_on_missing_marker :
    extract_phone emptySoup = "" ∧
    extract_address emptySoup = "" ∧
    extract_description emptySoup = "" ∧
    extract_amenities emptySoup = [] ∧
    extract_images emptySoup = [] ∧
    extract_homeplans emptySoup = [] ∧
    JVal.vstr (extract_phone emptySoup) ≠ JVal.vnull :=
  ⟨rfl, rfl, rfl, rfl, rfl, rfl, jeq_ne _ _ rfl⟩

/-! ## C2 -/

/-- C2 (amended): with `k < 3` raising attempts followed by a successful
one, both `_safe_get_page` loops return the parsed document after exactly
`k` session teardowns; the detail scraper sleeps `5 * (attempt + 1)`
seconds before each retry, a strictly increasing schedule, while the link
scraper sleeps the constant `5` seconds; with all three attempts raising,
both return `None` rather than raising. -/
theorem safe_get_page_retry (α : Type) (outcomes : Nat → AttemptOutcome α) :
    (∀ k d, k < 3 → (∀ i, i < k → outcomes i = AttemptOutcome.raiseExc) →
      outcomes k = AttemptOutcome.ok d →
      (safe_get_page_detail outcomes).result = some d ∧
      (safe_get_page_detail outcomes).teardowns = k ∧
      (safe_get_page_detail outcomes).delays =
        (List.range k).map (fun i => 5 * (i + 1)) ∧
      List.Chain' (· < ·) ((List.range k).map (fun i => 5 * (i + 1))) ∧
      (safe_get_page_links outcomes).result = some d ∧
      (safe_get_page_links outcomes).teardowns = k ∧
      (safe_get_page_links outcomes).delays = List.replicate k 5) ∧
    ((∀ i, i < 3 → outcomes i = AttemptOutcome.raiseExc) →
      (safe_get_page_detail outcomes).result = none ∧
      (safe_get_page_links outcomes).result = none) := by
  constructor
  · intro k d hk h1 h2
    interval_cases k
    · have e1 : safe_get_page_detail outcomes = ⟨some d, 0, []⟩ := by
        simp [safe_get_page_detail, retryLoop, h2]
      have e2 : safe_get_page_links outcomes = ⟨some d, 0, []⟩ := by
        simp [safe_get_page_links, retryLoop, h2]
      rw [e1, e2]
      exact ⟨rfl, rfl, rfl, trivial, rfl, rfl, rfl⟩
    · have o0 := h1 0 (by decide)
      have e1 : safe_get_page_detail outcomes = ⟨some d, 1, [5]⟩ := by
        simp [safe_get_page_detail, retryLoop, o0, h2]
      have e2 : safe_get_page_links outcomes = ⟨some d, 1, [5]⟩ := by
        simp [safe_get_page_links, retryLoop, o0, h2]
      rw [e1, e2]
      exact ⟨rfl, rfl, rfl, List.Chain.nil, rfl, rfl, rfl⟩
    · have o0 := h1 0 (by decide)
      have o1 := h1 1 (by decide)
      have e1 : safe_get_page_detail outcomes = ⟨some d, 2, [5, 10]⟩ := by
        simp [safe_get_page_detail, retryLoop, o0, o1, h2]
      have e2 : safe_get_page_links outcomes = ⟨some d, 2, [5, 5]⟩ := by
        simp [safe_get_page_links, retryLoop, o0, o1, h2]
      rw [e1, e2]
      exact ⟨rfl, rfl, rfl, List.Chain.cons (by norm_num) List.Chain.nil,
        rfl, rfl, rfl⟩
  · intro h
    have o0 := h 0 (by decide)
    have o1 := h 1 (by decide)
    have o2 := h 2 (by decide)
    constructor
    · simp [safe_get_page_detail, retryLoop, o0, o1, o2]
    · simp [safe_get_page_links, retryLoop, o0, o1, o2]

/-- C2 witness: two raises then success — the detail loop sleeps `[5, 10]`
after two teardowns, the link loop `[5, 5]`; three raises yield `None`. -/
theorem safe_get_page_retry_witness :
    (safe_get_page_detail exOutcomes).result = some () ∧
    (safe_get_page_detail exOutcomes).teardowns = 2 ∧
    (safe_get_page_detail exOutcomes).delays = [5, 10] ∧
    (safe_get_page_links exOutcomes).delays = [5, 5] ∧
    (safe_get_page_detail exOutcomesFail).result = none := by
  have h := (safe_get_page_retry Unit exOutcomes).1 2 () (by decide)
    (fun i hi => by interval_cases i <;> rfl) rfl
  have hf := (safe_get_page_retry Unit exOutcomesFail).2 (fun i _ => rfl)
  refine ⟨h.1, h.2.1, ?_, ?_, hf.1⟩
  · rw [h.2.2.1]; decide
  · rw [h.2.2.2.2.2.2]; decide

/-- C2 counterexample: in `get_tollbrothers_api_links.py`, a fetch that
raises twice and then succeeds sleeps `5` seconds before each retry — the
delays between consecutive attempts are equal, not strictly increasing as
the claim states for every `_safe_get_page`. -/
theorem safe_get_page_links_delays_not_increasing :
    (safe_get_page_links exOutcomes).result = some () ∧
    (safe_get_page_links exOutcomes).delays = [5, 5] ∧
    ¬ List.Chain' (· < ·) [5, 5] := by
  refine ⟨rfl, rfl, ?_⟩
  simp [List.chain'_cons]

/-! ## C3 -/

/-- Every key of the community record literal, by computation. -/
theorem communityRecord_keys (parse : String → Option JVal)
    (fetch : String → String → Option Node) (now url : String) (soup : Node)
    (price : JVal) :
    jkeys (communityRecord parse fetch now url soup price) = communityKeys ∧
    (jfield (communityRecord parse fetch now url soup price) "location").map
      jkeys = some locationKeys ∧
    (jfield2 (communityRecord parse fetch now url soup price) "location"
      "address").map jkeys = some locAddressKeys ∧
    (jfield (communityRecord parse fetch now url soup price) "details").map
      jkeys = some detailsKeys :=
  ⟨rfl, rfl, rfl, rfl⟩

/-- C3: any record `get_community_details` produces is assembled by
`assembleCommunity` from a fetched page; any assembled record carries the
complete fixed key set of §3 at every nesting level, and on every input
document each field that the page fails to populate holds `None`, the empty
string or the empty sequence, never a missing key.  (`timestamp` and `url`
are always populated, and `details.community_count` is the constant `0`.) -/
theorem get_community_details_shape :
    (∀ parse fetch now url r,
       get_community_details parse fetch now url = some r →
       ∃ soup, firstFetch fetch url selectorChain = some soup ∧
         assembleCommunity parse fetch now url soup = some r) ∧
    (∀ parse fetch now url soup r,
       assembleCommunity parse fetch now url soup = some r →
       jkeys r = communityKeys ∧
       (jfield r "location").map jkeys = some locationKeys ∧
       (jfield2 r "location" "address").map jkeys = some locAddressKeys ∧
       (jfield r "details").map jkeys = some detailsKeys ∧
       jfield r "status" = some JVal.vnull ∧
       jfield r "nearbyplaces" = some (JVal.varr []) ∧
       jfield2 r "details" "stories_range" = some (JVal.vstr "") ∧
       jfield3 r "location" "address" "market" = some JVal.vnull ∧
       (dlookup (extract_jsonld_data parse soup) "name" = none →
         jfield r "name" = some (JVal.vstr "")) ∧
       (dlookup (extract_jsonld_data parse soup) "telephone" = none →
         jfield r "phone" = some (JVal.vstr "")) ∧
       (dlookup (extract_jsonld_data parse soup) "address" = none →
         jfield r "address" = some (JVal.vstr "") ∧
         jfield3 r "location" "address" "city" = some JVal.vnull ∧
         jfield3 r "location" "address" "state" = some JVal.vnull) ∧
       (dlookup (extract_jsonld_data parse soup) "priceRange" = none →
         dlookup (extract_jsonld_data parse soup) "offers" = none →
         jfield r "price_from" = some JVal.vnull ∧
         jfield2 r "details" "price_range" = some JVal.vnull) ∧
       (overviewP soup = none →
         dlookup (extract_jsonld_data parse soup) "description" = none →
         jfield r "description" = some (JVal.vstr "")) ∧
       (dlookup (extract_jsonld_data parse soup) "image" = none →
         extract_images soup = [] →
         jfield r "images" = some (JVal.varr [])) ∧
       (dlookup (extract_jsonld_data parse soup) "geo" = none →
         jfield2 r "location" "latitude" = some JVal.vnull ∧
         jfield2 r "location" "longitude" = some JVal.vnull) ∧
       (extract_sqft_range soup = none →
         jfield2 r "details" "sqft_range" = some JVal.vnull) ∧
       ((extract_beds_baths_range soup).1 = none →
         jfield2 r "details" "bed_range" = some JVal.vnull) ∧
       ((extract_beds_baths_range soup).2 = none →
         jfield2 r "details" "bath_range" = some JVal.vnull) ∧
       (extract_amenities soup = [] →
         jfield r "amenities" = some (JVal.varr [])) ∧
       (extract_homeplans soup = [] →
         jfield r "homeplans" = some (JVal.varr [])) ∧
       (extract_homesites parse fetch soup = [] →
         jfield r "homesites" = some (JVal.varr []))) := by
  constructor
  · intro parse fetch now url r h
    rw [get_community_details] at h
    split at h
    · exact Option.noConfusion h
    · exact ⟨_, by assumption, h⟩
  · intro parse fetch now url soup r h
    rw [assembleCommunity] at h
    split at h
    · exact Option.noConfusion h
    · rename_i price hp
      obtain rfl : communityRecord parse fetch now url soup price = r :=
        Option.some.inj h
      obtain ⟨k1, k2, k3, k4⟩ :=
        communityRecord_keys parse fetch now url soup price
      refine ⟨k1, k2, k3, k4, rfl, rfl, rfl, rfl, ?_, ?_, ?_, ?_, ?_, ?_, ?_,
        ?_, ?_, ?_, ?_, ?_, ?_⟩
      · intro hn
        have : communityName (extract_jsonld_data parse soup) = JVal.vstr "" := by
          simp [communityName, jgetD, hn, jTruthy]
        show some (communityName (extract_jsonld_data parse soup)) = _
        rw [this]
      · intro hn
        have : communityPhone (extract_jsonld_data parse soup) = JVal.vstr "" := by
          simp [communityPhone, jgetD, hn]
        show some (communityPhone (extract_jsonld_data parse soup)) = _
        rw [this]
      · intro hn
        have ha : communityAddress (extract_jsonld_data parse soup) = "" := by
          simp [communityAddress, hn]
        have hc : cityOf (extract_jsonld_data parse soup) = JVal.vnull := by
          simp [cityOf, jgetD, hn, dlookup]
        have hs : stateOf (extract_jsonld_data parse soup) = JVal.vnull := by
          simp [stateOf, jgetD, hn, dlookup]
        refine ⟨?_, ?_, ?_⟩
        · show some (JVal.vstr (communityAddress (extract_jsonld_data parse soup))) = _
          rw [ha]
        · show some (cityOf (extract_jsonld_data parse soup)) = _
          rw [hc]
        · show some (stateOf (extract_jsonld_data parse soup)) = _
          rw [hs]
      · intro h1 h2
        have : price = JVal.vnull := by
          rw [pyGetPrice] at hp
          simp [jgetD, h1, h2, jTruthy] at hp
          exact hp.symm
        subst this
        exact ⟨rfl, rfl⟩
      · intro h1 h2
        have : communityDescription (extract_jsonld_data parse soup) soup =
            JVal.vstr "" := by
          simp [communityDescription, h1, jgetD, h2, jTruthy]
        show some (communityDescription (extract_jsonld_data parse soup) soup) = _
        rw [this]
      · intro h1 h2
        have : communityImages parse soup = [] := by
          simp [communityImages, h1, h2]
        show some (JVal.varr (communityImages parse soup)) = _
        rw [this]
      · intro hg
        have : communityGeo (extract_jsonld_data parse soup) =
            (JVal.vnull, JVal.vnull) := by
          simp [communityGeo, hg]
        constructor
        · show some (communityGeo (extract_jsonld_data parse soup)).1 = _
          rw [this]
        · show some (communityGeo (extract_jsonld_data parse soup)).2 = _
          rw [this]
      · intro hs
        show some (optJ (extract_sqft_range soup)) = _
        rw [hs]
        rfl
      · intro hb
        show some (optJ (extract_beds_baths_range soup).1) = _
        rw [hb]
        rfl
      · intro hb
        show some (optJ (extract_beds_baths_range soup).2) = _
        rw [hb]
        rfl
      · intro ha
        show some (JVal.varr (extract_amenities soup)) = _
        rw [ha]
      · intro hh
        show some (JVal.varr (extract_homeplans soup)) = _
        rw [hh]
      · intro hh
        show some (JVal.varr (extract_homesites parse fetch soup)) = _
        rw [hh]

/-- C3 witness: the record scraped from the empty page through the selector
chain has the full shape with null/empty defaults. -/
theorem get_community_details_shape_witness :
    jkeys exCommunityEmpty = communityKeys ∧
    (jfield exCommunityEmpty "location").map jkeys = some locationKeys ∧
    (jfield exCommunityEmpty "details").map jkeys = some detailsKeys ∧
    jfield exCommunityEmpty "status" = some JVal.vnull ∧
    jfield exCommunityEmpty "name" = some (JVal.vstr "") ∧
    jfield exCommunityEmpty "phone" = some (JVal.vstr "") ∧
    jfield exCommunityEmpty "images" = some (JVal.varr []) := by
  have hsome : assembleCommunity parseNone fetchEmpty
      "2024-01-01T00:00:00.000000" "https://www.tollbrothers.com/c" emptySoup =
      some exCommunityEmpty := rfl
  have h := (get_community_details_shape).2 parseNone fetchEmpty
    "2024-01-01T00:00:00.000000" "https://www.tollbrothers.com/c" emptySoup
    exCommunityEmpty hsome
  exact ⟨h.1, h.2.1, h.2.2.2.1, h.2.2.2.2.1,
    h.2.2.2.2.2.2.2.2.1 rfl,
    h.2.2.2.2.2.2.2.2.2.1 rfl,
    h.2.2.2.2.2.2.2.2.2.2.2.2.2.1 rfl rfl⟩

/-! ## C4 -/

/-- C4 (amended): `extract_sqft_range` strips the comma separators of each
matched numeral before `int` conversion and compares the parsed integers —
but the capture pattern admits at most three digits before a comma group,
so `"1,250 sqft"` parses to `1250` while `"1250 sqft"` parses to `125`; the
reported range is `min - max` of the parsed integers, re-formatted with
separators. -/
theorem extract_sqft_range_numeric :
    sqftParse "1,250 sqft" = some 1250 ∧
    sqftParse "1250 sqft" = some 125 ∧
    (∀ soup v vs, sqftValues soup = v :: vs →
      extract_sqft_range soup =
        some (commaFormat (natListMin v vs) ++ " - " ++
          commaFormat (natListMax v vs))) := by
  refine ⟨rfl, rfl, fun soup v vs h => ?_⟩
  rw [extract_sqft_range, h]

/-- C4 witness: on a page with fragments `985 sqft` and `1,250 sqft` the
range compares the integers 985 and 1250 (string comparison would have put
`"1,250"` first). -/
theorem extract_sqft_range_numeric_witness :
    extract_sqft_range sqftSoupOrder = some "985 - 1,250" :=
  extract_sqft_range_numeric.2.2 sqftSoupOrder 985 [1250] rfl

/-- C4 counterexample: `"1,250 sqft"` and `"1250 sqft"` do not parse to the
same integer — the latter yields 125, so a page carrying both fragments
reports the range `125 - 1,250`. -/
theorem sqft_fragments_parse_differently :
    sqftParse "1,250 sqft" = some 1250 ∧
    sqftParse "1250 sqft" = some 125 ∧
    sqftParse "1250 sqft" ≠ some 1250 ∧
    extract_sqft_range sqftSoupComma = some "125 - 1,250" :=
  ⟨rfl, rfl, by decide, rfl⟩

/-! ## C7 -/

/-- C7: in the assembled community record the structured-metadata value
wins per field — a structured name `Avalon Estates` becomes the record's
`name` whatever the visible DOM shows, and a non-empty structured image
list is stored as-is — with the single exception of `description`, where
the `CommunityOverview` paragraph wins over the structured description
whenever it exists. -/
theorem community_structured_precedence :
    ∀ parse fetch now url soup r,
      assembleCommunity parse fetch now url soup = some r →
      (dlookup (extract_jsonld_data parse soup) "name" =
          some (JVal.vstr "Avalon Estates") →
        jfield r "name" = some (JVal.vstr "Avalon Estates")) ∧
      (∀ p, overviewP soup = some p →
        jfield r "description" = some (JVal.vstr (pyStrip (nodeText p)))) ∧
      (∀ l, l ≠ [] →
        dlookup (extract_jsonld_data parse soup) "image" =
          some (JVal.varr l) →
        jfield r "images" = some (JVal.varr l)) := by
  intro parse fetch now url soup r h
  rw [assembleCommunity] at h
  split at h
  · exact Option.noConfusion h
  · rename_i price hp
    obtain rfl : communityRecord parse fetch now url soup price = r :=
      Option.some.inj h
    refine ⟨?_, ?_, ?_⟩
    · intro hn
      have : communityName (extract_jsonld_data parse soup) =
          JVal.vstr "Avalon Estates" := by
        simp only [communityName, jgetD]
        rw [hn]
        rfl
      show some (communityName (extract_jsonld_data parse soup)) = _
      rw [this]
    · intro p hpv
      have : communityDescription (extract_jsonld_data parse soup) soup =
          JVal.vstr (pyStrip (nodeText p)) := by
        simp [communityDescription, hpv]
      show some (communityDescription (extract_jsonld_data parse soup) soup) = _
      rw [this]
    · intro l hl hi
      have : communityImages parse soup = l := by
        simp [communityImages, hi, hl]
      show some (JVal.varr (communityImages parse soup)) = _
      rw [this]

/-- C7 witness: on `avalonSoup`, whose DOM shows `Avalon` while the
structured block says `Avalon Estates`, the record's name is the
structured one, and the overview paragraph beats the structured
description. -/
theorem community_structured_precedence_witness :
    jfield exCommunityAvalon "name" = some (JVal.vstr "Avalon Estates") ∧
    jfield exCommunityAvalon "description" =
      some (JVal.vstr "A richer curated copy.") := by
  have h := community_structured_precedence avalonParse fetchNone
    "2024-01-01T00:00:00.000000" "https://www.tollbrothers.com/avalon"
    avalonSoup exCommunityAvalon rfl
  exact ⟨h.1 rfl, h.2.1 avalonOverviewP rfl⟩

/-! ## C9 -/

/-- C9: `extract_address` returns a non-empty string only when some `div`'s
string matches the literal `Goodyear, AZ ` followed by five digits, and
`extract_description` only when some `div`'s string contains the literal
master-planned-community phrase; a document without the respective literal
— whatever other address or description it shows — gets the empty string. -/
theorem address_description_literal_gated (soup : Node) :
    (extract_address soup ≠ "" → (descOf soup).any goodyearDivP = true) ∧
    ((descOf soup).any goodyearDivP = false → extract_address soup = "") ∧
    (extract_description soup ≠ "" → (descOf soup).any descDivP = true) ∧
    ((descOf soup).any descDivP = false → extract_description soup = "") := by
  refine ⟨?_, ?_, ?_, ?_⟩
  · intro hne
    cases hf : (descOf soup).find? goodyearDivP with
    | none => exact absurd (by simp [extract_address, hf]) hne
    | some d =>
      exact List.any_eq_true.mpr
        ⟨d, List.mem_of_find?_eq_some hf, List.find?_some hf⟩
  · intro h
    simp [extract_address, find?_eq_none_of_any_false h]
  · intro hne
    cases hf : (descOf soup).find? descDivP with
    | none => exact absurd (by simp [extract_description, hf]) hne
    | some d =>
      exact List.any_eq_true.mpr
        ⟨d, List.mem_of_find?_eq_some hf, List.find?_some hf⟩
  · intro h
    simp [extract_description, find?_eq_none_of_any_false h]

/-- C9 witness: a page showing the valid address `456 Elm St, Phoenix, AZ
85001` and a differently worded description yields the empty string from
both extractors, while the Goodyear page carries a matching marker. -/
theorem address_description_literal_gated_witness :
    extract_address phoenixSoup = "" ∧
    extract_description phoenixSoup = "" ∧
    (descOf goodyearSoup).any goodyearDivP = true := by
  refine ⟨(address_description_literal_gated phoenixSoup).2.1 rfl,
    (address_description_literal_gated phoenixSoup).2.2.2 rfl,
    (address_description_literal_gated goodyearSoup).1 ?_⟩
  intro h
  exact absurd (congrArg String.length h) (by decide)

/-! ## C6 -/

/-- Looking up after an insert: the inserted key wins, others fall
through. -/
theorem dlookup_dinsert (d : List (String × JVal)) (k : String) (v : JVal)
    (key : String) :
    dlookup (dinsert d k v) key = if k = key then some v else dlookup d key := by
  induction d with
  | nil => simp [dinsert, dlookup]
  | cons kv rest ih =>
    obtain ⟨k', v'⟩ := kv
    by_cases h : k' = k
    · subst h
      by_cases hk : k' = key
      · subst hk; simp [dinsert, dlookup]
      · simp [dinsert, dlookup, hk]
    · by_cases hk : k' = key
      · subst hk
        have : ¬k = k' := fun e => h e.symm
        simp [dinsert, dlookup, h, this]
      · simp [dinsert, dlookup, h, hk, ih]

/-- First-defined choice with an empty fallback. -/
theorem dfirst_none (a : Option JVal) : dfirst a none = a := by
  cases a <;> rfl

/-- First-defined choice is associative. -/
theorem dfirst_assoc (a b c : Option JVal) :
    dfirst (dfirst a b) c = dfirst a (dfirst b c) := by
  cases a <;> rfl

/-- Lookup distributes over append as a first-defined choice. -/
theorem dlookup_append (l1 l2 : List (String × JVal)) (key : String) :
    dlookup (l1 ++ l2) key = dfirst (dlookup l1 key) (dlookup l2 key) := by
  induction l1 with
  | nil => simp [dlookup, dfirst]
  | cons kv rest ih =>
    obtain ⟨k, v⟩ := kv
    by_cases h : k = key
    · simp [dlookup, h, dfirst]
    · simp [dlookup, h, ih]

/-- `d.update(fs)` looks up as: last occurrence in `fs` first, then `d` —
the last-write-wins merge law. -/
theorem dlookup_dictUpdate (fs d : List (String × JVal)) (key : String) :
    dlookup (dictUpdate d fs) key =
      dfirst (dlookup fs.reverse key) (dlookup d key) := by
  induction fs generalizing d with
  | nil => simp [dictUpdate, dlookup, dfirst]
  | cons kv rest ih =>
    obtain ⟨k, v⟩ := kv
    have step : dictUpdate d ((k, v) :: rest) = dictUpdate (dinsert d k v) rest := rfl
    rw [step, ih, List.reverse_cons, dlookup_append, dfirst_assoc]
    congr 1
    rw [dlookup_dinsert]
    by_cases h : k = key
    · simp [dlookup, h, dfirst]
    · simp [dlookup, h, dfirst]

/-- Folding `update` over a block list looks up as: the reversed
concatenation of the blocks first, then the accumulator. -/
theorem dlookup_foldl_dictUpdate (objs : List (List (String × JVal)))
    (acc : List (String × JVal)) (key : String) :
    dlookup (objs.foldl dictUpdate acc) key =
      dfirst (dlookup (List.flatten objs).reverse key) (dlookup acc key) := by
  induction objs generalizing acc with
  | nil => simp [dlookup, dfirst]
  | cons fs rest ih =>
    rw [List.foldl_cons, ih, List.flatten_cons, List.reverse_append,
      dlookup_append, dfirst_assoc, dlookup_dictUpdate]

/-- One loop step of `extract_jsonld_data`, through the acceptance test. -/
theorem jsonldStep_eq (parse : String → Option JVal)
    (acc : List (String × JVal)) (script : Node) :
    jsonldStep parse acc script =
      match acceptBlock parse script with
      | some fs => dictUpdate acc fs
      | none => acc := by
  cases h1 : nodeString script with
  | none => simp [jsonldStep, acceptBlock, h1]
  | some str =>
    cases h2 : parse str with
    | none => simp [jsonldStep, acceptBlock, h1, h2]
    | some j =>
      cases j with
      | vobj fs =>
        by_cases h : allowedType fs = true
        · simp [jsonldStep, acceptBlock, h1, h2, h]
        · simp [jsonldStep, acceptBlock, h1, h2, h]
      | vnull => simp [jsonldStep, acceptBlock, h1, h2]
      | vbool b => simp [jsonldStep, acceptBlock, h1, h2]
      | vstr s => simp [jsonldStep, acceptBlock, h1, h2]
      | vint n => simp [jsonldStep, acceptBlock, h1, h2]
      | varr l => simp [jsonldStep, acceptBlock, h1, h2]

/-- The accepted-block fold computes `extract_jsonld_data`. -/
theorem extract_jsonld_eq_foldl (parse : String → Option JVal) (soup : Node) :
    extract_jsonld_data parse soup =
      (acceptedObjs parse soup).foldl dictUpdate [] := by
  rw [extract_jsonld_data, acceptedObjs]
  generalize ldScripts soup = scripts
  suffices h : ∀ (acc : List (String × JVal)),
      scripts.foldl (jsonldStep parse) acc =
        (scripts.filterMap (acceptBlock parse)).foldl dictUpdate acc from h []
  induction scripts with
  | nil => intro acc; rfl
  | cons script rest ih =>
    intro acc
    rw [List.foldl_cons, jsonldStep_eq, List.filterMap_cons]
    cases hb : acceptBlock parse script with
    | none => exact ih acc
    | some fs =>
      rw [List.foldl_cons]
      exact ih (dictUpdate acc fs)

/-- A lookup succeeds exactly when the key occurs. -/
theorem dlookup_isSome_iff (l : List (String × JVal)) (key : String) :
    (dlookup l key).isSome = true ↔ key ∈ dkeys l := by
  induction l with
  | nil => simp [dlookup, dkeys]
  | cons kv rest ih =>
    obtain ⟨k, v⟩ := kv
    by_cases h : k = key
    · subst h; simp [dlookup, dkeys]
    · have hd : dlookup ((k, v) :: rest) key = dlookup rest key := by
        simp [dlookup, h]
      rw [hd, ih]
      constructor
      · intro hx
        exact List.mem_cons_of_mem _ hx
      · intro hx
        rcases List.mem_cons.mp hx with e | hx2
        · exact absurd e.symm h
        · exact hx2

/-- C6: `extract_jsonld_data` accepts exactly the blocks that decode to
dicts with an allow-listed `@type`, merges them with last-write-wins (a
lookup in the result is a lookup in the reversed concatenation of the
accepted blocks), and a malformed or rejected block costs nothing: every
key of every accepted block is present in the result, whatever the other
blocks look like. -/
theorem extract_jsonld_merge (parse : String → Option JVal) (soup : Node) :
    (∀ fs ∈ acceptedObjs parse soup, allowedType fs = true) ∧
    (∀ key, dlookup (extract_jsonld_data parse soup) key =
      dlookup (List.flatten (acceptedObjs parse soup)).reverse key) ∧
    (∀ fs ∈ acceptedObjs parse soup, ∀ key v, dlookup fs key = some v →
      (dlookup (extract_jsonld_data parse soup) key).isSome = true) := by
  have hEq : ∀ key, dlookup (extract_jsonld_data parse soup) key =
      dlookup (List.flatten (acceptedObjs parse soup)).reverse key := by
    intro key
    rw [extract_jsonld_eq_foldl, dlookup_foldl_dictUpdate]
    exact dfirst_none _
  refine ⟨?_, hEq, ?_⟩
  · intro fs hfs
    rw [acceptedObjs] at hfs
    obtain ⟨script, _, hab⟩ := List.mem_filterMap.mp hfs
    cases h1 : nodeString script with
    | none => simp [acceptBlock, h1] at hab
    | some str =>
      cases h2 : parse str with
      | none => simp [acceptBlock, h1, h2] at hab
      | some j =>
        cases j with
        | vobj fs' =>
          by_cases h : allowedType fs' = true
          · simp [acceptBlock, h1, h2, h] at hab
            exact hab ▸ h
          · simp [acceptBlock, h1, h2, h] at hab
        | vnull => simp [acceptBlock, h1, h2] at hab
        | vbool b => simp [acceptBlock, h1, h2] at hab
        | vstr s => simp [acceptBlock, h1, h2] at hab
        | vint n => simp [acceptBlock, h1, h2] at hab
        | varr l => simp [acceptBlock, h1, h2] at hab
  · intro fs hfs key v hkv
    have h1 : key ∈ dkeys fs :=
      (dlookup_isSome_iff fs key).mp (by rw [hkv]; rfl)
    obtain ⟨p, hp, hpk⟩ := List.mem_map.mp h1
    have h2 : p ∈ List.flatten (acceptedObjs parse soup) :=
      List.mem_flatten.mpr ⟨fs, hfs, hp⟩
    rw [hEq key, dlookup_isSome_iff]
    exact List.mem_map.mpr ⟨p, List.mem_reverse.mpr h2, hpk⟩

/-- C6 witness: on a page whose middle block is malformed, the two valid
blocks still contribute their keys, and the later block's `name` wins. -/
theorem extract_jsonld_merge_witness :
    (dlookup (extract_jsonld_data jsonldParse jsonldSoup) "telephone").isSome
      = true ∧
    (dlookup (extract_jsonld_data jsonldParse jsonldSoup) "url").isSome
      = true ∧
    dlookup (extract_jsonld_data jsonldParse jsonldSoup) "name" =
      some (JVal.vstr "Second") := by
  have h := extract_jsonld_merge jsonldParse jsonldSoup
  have hacc : acceptedObjs jsonldParse jsonldSoup =
      [[("@type", JVal.vstr "Place"), ("name", JVal.vstr "First"),
        ("telephone", JVal.vstr "480-555-1234")],
       [("@type", JVal.vstr "WebPage"), ("name", JVal.vstr "Second"),
        ("url", JVal.vstr "https://t.co/x")]] := rfl
  refine ⟨?_, ?_, ?_⟩
  · exact h.2.2
      [("@type", JVal.vstr "Place"), ("name", JVal.vstr "First"),
       ("telephone", JVal.vstr "480-555-1234")]
      (by rw [hacc]; exact List.mem_cons_self _ _)
      "telephone" (JVal.vstr "480-555-1234") rfl
  · exact h.2.2
      [("@type", JVal.vstr "WebPage"), ("name", JVal.vstr "Second"),
       ("url", JVal.vstr "https://t.co/x")]
      (by rw [hacc]; exact List.mem_cons_of_mem _ (List.mem_cons_self _ _))
      "url" (JVal.vstr "https://t.co/x") rfl
  · rw [h.2.1 "name"]
    rfl

/-! ## Homesite record lemmas (C5, C8, C10) -/

/-- Every homesite emitted by `extract_homesites` is the record of the
field data of some card of the page. -/
theorem mem_extract_homesites {parse : String → Option JVal}
    {fetch : String → String → Option Node} {soup : Node} {hs : JVal}
    (h : hs ∈ extract_homesites parse fetch soup) :
    ∃ card d, card ∈ cardsOf soup ∧ hsData parse fetch card = some d ∧
      hs = hsRecord d := by
  rw [extract_homesites] at h
  obtain ⟨card, hcard, hmk⟩ := List.mem_filterMap.mp h
  rw [mkHomesite] at hmk
  cases hd : hsData parse fetch card with
  | none => rw [hd] at hmk; exact Option.noConfusion hmk
  | some d =>
    rw [hd] at hmk
    exact ⟨card, d, hcard, hd, (Option.some.inj hmk).symm⟩

/-- A negative membership test is a true non-membership. -/
theorem not_mem_of_jmem_false (x : JVal) (l : List JVal)
    (h : jmem x l = false) : x ∉ l := by
  intro hx
  have ht : l.any (fun y => jeq y x) = true :=
    List.any_eq_true.mpr ⟨x, hx, jeq_refl x⟩
  rw [jmem] at h
  rw [h] at ht
  exact Bool.noConfusion ht

/-- The supplementary scan only ever appends. -/
theorem appendImgScan_extends (l : List Node) :
    ∀ images : List JVal, ∃ rest, appendImgScan images l = images ++ rest := by
  induction l with
  | nil => exact fun images => ⟨[], (List.append_nil images).symm⟩
  | cons img rest ih =>
    intro images
    cases hg : getAttr img "src" with
    | none =>
      simp only [appendImgScan, hg]
      exact ih images
    | some s =>
      by_cases hc : (!s.isEmpty && !startsWithL s.data "data:".data &&
          !jmem (JVal.vstr s) images) = true
      · simp only [appendImgScan, hg, hc, if_true]
        obtain ⟨r, hr⟩ := ih (images ++ [JVal.vstr s])
        exact ⟨JVal.vstr s :: r, by rw [hr, List.append_assoc]; rfl⟩
      · rw [Bool.not_eq_true] at hc
        simp only [appendImgScan, hg, hc, Bool.false_eq_true, if_false]
        exact ih images

/-- The supplementary scan preserves freedom from duplicates: every source
it appends is checked against everything already collected. -/
theorem appendImgScan_nodup (l : List Node) :
    ∀ images : List JVal, images.Nodup → (appendImgScan images l).Nodup := by
  induction l with
  | nil => exact fun _ h => h
  | cons img rest ih =>
    intro images hnd
    cases hg : getAttr img "src" with
    | none =>
      simp only [appendImgScan, hg]
      exact ih images hnd
    | some s =>
      by_cases hc : (!s.isEmpty && !startsWithL s.data "data:".data &&
          !jmem (JVal.vstr s) images) = true
      · simp only [appendImgScan, hg, hc, if_true]
        refine ih (images ++ [JVal.vstr s]) ?_
        have hm : jmem (JVal.vstr s) images = false := by
          have := (Bool.and_eq_true _ _).mp hc
          simpa using this.2
        have hnm : JVal.vstr s ∉ images := not_mem_of_jmem_false _ _ hm
        simp [List.nodup_append, hnd, hnm]
      · rw [Bool.not_eq_true] at hc
        simp only [appendImgScan, hg, hc, Bool.false_eq_true, if_false]
        exact ih images hnd

/-! ## C5 -/

/-- C5 (amended): in every homesite record, `baths` is strictly typed
integer-or-null — an integer exactly when the scraped text is a non-empty
digit string, null otherwise, with no parse error escaping — while `beds`
is kept as the raw card text, a string-or-null, never parsed to a
number. -/
theorem homesite_beds_baths_typing :
    ∀ parse fetch soup hs, hs ∈ extract_homesites parse fetch soup →
      isIntOrNull ((jfield hs "baths").getD JVal.vnull) = true ∧
      isStrOrNull ((jfield hs "beds").getD JVal.vnull) = true := by
  intro parse fetch soup hs h
  obtain ⟨card, d, _, _, rfl⟩ := mem_extract_homesites h
  constructor
  · show isIntOrNull ((some (pyBathsVal d.baths)).getD JVal.vnull) = true
    cases hb : d.baths with
    | none => rfl
    | some s =>
      simp only [pyBathsVal]
      split
      · rfl
      · rfl
  · show isStrOrNull ((some (optJ d.beds)).getD JVal.vnull) = true
    cases d.beds <;> rfl

/-- C5 witness: the scraped card with bath text `2` stores the integer 2. -/
theorem homesite_beds_baths_typing_witness :
    exHomesite ∈ extract_homesites exParse exFetch exSoup ∧
    isIntOrNull ((jfield exHomesite "baths").getD JVal.vnull) = true ∧
    isStrOrNull ((jfield exHomesite "beds").getD JVal.vnull) = true := by
  have hm : exHomesite ∈ extract_homesites exParse exFetch exSoup :=
    headD_mem _ _ (fun he => absurd (congrArg List.length he) (by decide))
  exact ⟨hm, homesite_beds_baths_typing exParse exFetch exSoup exHomesite hm⟩

/-- C5 counterexample: the card whose bed text is the numeral `3` stores
`beds` as the string `"3"`, not as an integer or null — only `baths` is
parsed. -/
theorem homesite_beds_kept_raw :
    jfield exHomesite "beds" = some (JVal.vstr "3") ∧
    isIntOrNull (JVal.vstr "3") = false ∧
    jfield exHomesite "baths" = some (JVal.vint 2) :=
  ⟨rfl, rfl, rfl⟩

/-! ## C8 -/

/-- C8 (amended): homesite image collection is source-prioritized and
de-duplicating, but the whole-document fallback runs only when fewer than
two images are already collected: two or more structured images skip the
scan entirely (structured `[A, B]` stays `[A, B]` whatever the document
holds), while a sparser start is extended, in discovery order, by each
document image source that is present, non-`data:` and not yet collected —
e.g. structured `[A]` against document sources `[B, A, C]` gives
`[A, B, C]`. -/
theorem homesite_images_collection :
    (∀ images imgs, 2 ≤ images.length →
      homesiteFinalImages images imgs = images) ∧
    (∀ images imgs, ∃ rest,
      homesiteFinalImages images imgs = images ++ rest) ∧
    (∀ images imgs, images.Nodup → (homesiteFinalImages images imgs).Nodup) ∧
    homesiteFinalImages [JVal.vstr "A"]
      [Node.elem "img" [("src", "B")] [], Node.elem "img" [("src", "A")] [],
       Node.elem "img" [("src", "C")] []] =
      [JVal.vstr "A", JVal.vstr "B", JVal.vstr "C"] := by
  refine ⟨?_, ?_, ?_, rfl⟩
  · intro images imgs h
    rw [homesiteFinalImages, if_neg (by omega)]
  · intro images imgs
    rw [homesiteFinalImages]
    by_cases h : images.length < 2
    · rw [if_pos h]
      exact appendImgScan_extends imgs images
    · rw [if_neg h]
      exact ⟨[], (List.append_nil images).symm⟩
  · intro images imgs hnd
    rw [homesiteFinalImages]
    by_cases h : images.length < 2
    · rw [if_pos h]
      exact appendImgScan_nodup imgs images hnd
    · rw [if_neg h]
      exact hnd

/-- C8 witness: two structured images skip the document scan of the
homesite detail page; a single image `A` is extended without duplicates. -/
theorem homesite_images_collection_witness :
    homesiteFinalImages [JVal.vstr "A", JVal.vstr "B"] (imgTags exDetail) =
      [JVal.vstr "A", JVal.vstr "B"] ∧
    (homesiteFinalImages [JVal.vstr "A"] (imgTags exDetail)).Nodup := by
  constructor
  · exact homesite_images_collection.1 [JVal.vstr "A", JVal.vstr "B"]
      (imgTags exDetail) (by decide)
  · exact homesite_images_collection.2.2.1 [JVal.vstr "A"] (imgTags exDetail)
      (List.nodup_singleton _)

/-- C8 counterexample: a homesite whose structured gallery yields `[A, B]`
over a detail page whose full-document scan would yield `[B, C]` stores
`[A, B]` — the two collected images disable the fallback, so `C` is never
appended and the claimed final sequence `[A, B, C]` is not produced. -/
theorem homesite_images_no_scan_at_two :
    jfield exHomesite "images" =
      some (JVal.varr [JVal.vstr "A", JVal.vstr "B"]) ∧
    JVal.varr [JVal.vstr "A", JVal.vstr "B"] ≠
      JVal.varr [JVal.vstr "A", JVal.vstr "B", JVal.vstr "C"] :=
  ⟨rfl, jeq_ne _ _ rfl⟩

/-! ## C10 -/

/-- C10: in every homesite record, `image_url` is the head of the record's
`images` sequence when that sequence is non-empty, and null when it is
empty. -/
theorem homesite_image_url_head :
    ∀ parse fetch soup hs, hs ∈ extract_homesites parse fetch soup →
      ∃ imgs, jfield hs "images" = some (JVal.varr imgs) ∧
        (imgs = [] → jfield hs "image_url" = some JVal.vnull) ∧
        (∀ x xs, imgs = x :: xs → jfield hs "image_url" = some x) := by
  intro parse fetch soup hs h
  obtain ⟨card, d, _, _, rfl⟩ := mem_extract_homesites h
  refine ⟨d.images, rfl, ?_, ?_⟩
  · intro he
    show some (match d.images with
      | [] => JVal.vnull
      | x :: _ => x) = some JVal.vnull
    rw [he]
  · intro x xs he
    show some (match d.images with
      | [] => JVal.vnull
      | x :: _ => x) = some x
    rw [he]

/-- C10 witness: the scraped homesite stores `images = [A, B]` and
`image_url = A`, its head. -/
theorem homesite_image_url_head_witness :
    jfield exHomesite "image_url" = some (JVal.vstr "A") ∧
    jfield exHomesite "images" =
      some (JVal.varr [JVal.vstr "A", JVal.vstr "B"]) := by
  have hm : exHomesite ∈ extract_homesites exParse exFetch exSoup :=
    headD_mem _ _ (fun he => absurd (congrArg List.length he) (by decide))
  obtain ⟨imgs, h1, _, h3⟩ :=
    homesite_image_url_head exParse exFetch exSoup exHomesite hm
  have he : some (JVal.varr imgs) =
      some (JVal.varr [JVal.vstr "A", JVal.vstr "B"]) := by
    rw [← h1]
    rfl
  have he2 : imgs = [JVal.vstr "A", JVal.vstr "B"] := by
    injection he with he'
    injection he'
  exact ⟨h3 (JVal.vstr "A") [JVal.vstr "B"] he2, h1.trans (by rw [he2])⟩

end TB
